import Mathlib

/-
Verification development for the cloud-day25 repository.

Shallow embedding of:
  * src/agent-code/agent.py   — the tool-augmented chat orchestrator
    (tool handlers, `execute_tool`, the `/chat` route with its two SSE
    generators `generate_with_tool_call` and `generate`, per-session
    history with the 10-message model window and 20-message retention).
  * src/gcloud-helper/helper.py — the `/execute` whitelist endpoint.

External effects are passed in explicitly: the LLM backend's two
responses per turn come from a `Backend` record, the helper services'
HTTP replies from a `NetOracle`, and the spawned subprocesses of the
gcloud helper are returned as data.  Python values flowing through the
code (JSON-decoded tool arguments, request bodies) are modelled by
`PyVal` together with Python truthiness, `dict.get`, and `str()`.
A Python exception escaping a generator is modelled by the `raised`
field of `GenOutput`; server-sent events are modelled structurally by
`Event` (the SSE text framing `data: {...}` is not modelled).
-/

namespace CloudDay

/-- Model of a Python value as produced by `json.loads` (floats are not
needed by any input considered here and are omitted). -/
inductive PyVal where
  | none
  | bool (b : Bool)
  | int (n : Int)
  | str (s : String)
  | list (xs : List PyVal)
  | obj (fields : List (String × PyVal))

/-- Python truthiness (`if x:`). -/
def pyTruthy : PyVal → Bool
  | .none => false
  | .bool b => b
  | .int n => n != 0
  | .str s => s ≠ ""
  | .list xs => !xs.isEmpty
  | .obj fs => !fs.isEmpty

/-- `dict.get(k)` without a default: last binding of the key wins, as in a
Python dict built by `json.loads`; `Option.none` models an absent key. -/
def dictLookup (fields : List (String × PyVal)) (k : String) : Option PyVal :=
  fields.foldl (fun acc p => if p.1 = k then some p.2 else acc) Option.none

mutual

/-- Python `repr`. -/
def pyRepr : PyVal → String
  | .none => "None"
  | .bool true => "True"
  | .bool false => "False"
  | .int n => toString n
  | .str s => "\x27" ++ s ++ "\x27"
  | .list xs => "[" ++ pyReprItems xs ++ "]"
  | .obj fs => "\x7b" ++ pyReprFields fs ++ "\x7d"

def pyReprItems : List PyVal → String
  | [] => ""
  | [x] => pyRepr x
  | x :: y :: t => pyRepr x ++ ", " ++ pyReprItems (y :: t)

def pyReprFields : List (String × PyVal) → String
  | [] => ""
  | [(k, v)] => "\x27" ++ k ++ "\x27: " ++ pyRepr v
  | (k, v) :: p :: t => "\x27" ++ k ++ "\x27: " ++ pyRepr v ++ ", " ++ pyReprFields (p :: t)

end

/-- Python `str()` as used by f-string interpolation. -/
def pyStr : PyVal → String
  | .str s => s
  | v => pyRepr v

/-! ### `json.loads` (the subset needed: null, booleans, integers,
strings with simple escapes, arrays, objects; anything else fails, as
does trailing garbage). -/

def skipWs : List Char → List Char
  | c :: rest => if c = ' ' ∨ c = '\t' ∨ c = '\n' ∨ c = '\r' then skipWs rest else c :: rest
  | [] => []

/-- Read string characters after the opening quote, up to the closing
quote; returns the content and the remainder. -/
def jsonStrAux : List Char → Option (List Char × List Char)
  | [] => Option.none
  | '"' :: rest => some ([], rest)
  | '\\' :: c :: rest =>
    (match c with
      | '"' => some '"'
      | '\\' => some '\\'
      | '/' => some '/'
      | 'n' => some '\n'
      | 't' => some '\t'
      | 'r' => some '\r'
      | _ => (Option.none : Option Char)).bind fun ch =>
        match jsonStrAux rest with
        | some (cs2, rem) => some (ch :: cs2, rem)
        | Option.none => Option.none
  | c :: rest =>
    if c = '\\' then Option.none
    else
      match jsonStrAux rest with
      | some (cs2, rem) => some (c :: cs2, rem)
      | Option.none => Option.none

def takeDigits : List Char → (List Char × List Char)
  | [] => ([], [])
  | c :: rest =>
    if c.isDigit then
      let pr := takeDigits rest
      (c :: pr.1, pr.2)
    else ([], c :: rest)

def digitsToNat (ds : List Char) : Nat :=
  ds.foldl (fun acc c => acc * 10 + (c.toNat - '0'.toNat)) 0

mutual

def parseValue : Nat → List Char → Option (PyVal × List Char)
  | 0, _ => Option.none
  | fuel + 1, cs =>
    match skipWs cs with
    | 'n' :: 'u' :: 'l' :: 'l' :: rest => some (.none, rest)
    | 't' :: 'r' :: 'u' :: 'e' :: rest => some (.bool true, rest)
    | 'f' :: 'a' :: 'l' :: 's' :: 'e' :: rest => some (.bool false, rest)
    | '"' :: rest => (jsonStrAux rest).map fun pr => (.str (String.mk pr.1), pr.2)
    | '{' :: rest =>
      (match skipWs rest with
        | '}' :: rest2 => some (.obj [], rest2)
        | other => (parseMembers fuel other).map fun pr => (.obj pr.1, pr.2))
    | '[' :: rest =>
      (match skipWs rest with
        | ']' :: rest2 => some (.list [], rest2)
        | other => (parseItems fuel other).map fun pr => (.list pr.1, pr.2))
    | '-' :: rest =>
      (match takeDigits rest with
        | ([], _) => Option.none
        | (ds, rem) => some (.int (-(digitsToNat ds : Int)), rem))
    | c :: rest =>
      if c.isDigit then
        match takeDigits (c :: rest) with
        | (ds, rem) => some (.int (digitsToNat ds : Int), rem)
      else Option.none
    | [] => Option.none

def parseMembers : Nat → List Char → Option (List (String × PyVal) × List Char)
  | 0, _ => Option.none
  | fuel + 1, cs =>
    match skipWs cs with
    | '"' :: rest =>
      (match jsonStrAux rest with
        | Option.none => Option.none
        | some (kcs, rem) =>
          match skipWs rem with
          | ':' :: rem2 =>
            (match parseValue fuel rem2 with
              | Option.none => Option.none
              | some (v, rem3) =>
                match skipWs rem3 with
                | ',' :: rem4 =>
                  (parseMembers fuel rem4).map fun pr => ((String.mk kcs, v) :: pr.1, pr.2)
                | '}' :: rem4 => some ([(String.mk kcs, v)], rem4)
                | _ => Option.none)
          | _ => Option.none)
    | _ => Option.none

def parseItems : Nat → List Char → Option (List PyVal × List Char)
  | 0, _ => Option.none
  | fuel + 1, cs =>
    match parseValue fuel cs with
    | Option.none => Option.none
    | some (v, rem) =>
      match skipWs rem with
      | ',' :: rem2 => (parseItems fuel rem2).map fun pr => (v :: pr.1, pr.2)
      | ']' :: rem2 => some ([v], rem2)
      | _ => Option.none

end

/-- `json.loads`: whole-input parse, rejecting trailing garbage. -/
def jsonLoads (s : String) : Option PyVal :=
  match parseValue (s.length + 1) s.data with
  | some (v, rest) => if (skipWs rest).isEmpty then some v else Option.none
  | Option.none => Option.none

/-! ### Data model of agent.py -/

/-- A model-issued tool call (`tc.id`, `tc.function.name`,
`tc.function.arguments` — the arguments are the raw JSON text). -/
structure ToolCall where
  id : String
  name : String
  arguments : String
deriving DecidableEq

/-- One entry of the `messages` list sent to the LLM (a Python dict with
optional `tool_calls` / `tool_call_id` keys). -/
structure Message where
  role : String
  content : Option String
  tool_calls : List ToolCall := []
  tool_call_id : Option String := Option.none
deriving DecidableEq

/-- One entry of `conversation_histories[session_id]`
(`{"role": ..., "content": ...}`). -/
structure ChatMsg where
  role : String
  content : String
deriving DecidableEq

/-- `response.choices[0].message` of the first (non-streaming) LLM call:
`tool_calls` is falsy (here: empty) when the model answers directly. -/
structure ModelResponse where
  content : Option String
  tool_calls : List ToolCall

/-- One step of the streaming LLM response: a delivered chunk
(`chunk.choices[0].delta.content`, possibly null), or the stream
raising mid-iteration. -/
inductive StreamItem where
  | chunk (deltaContent : Option String)
  | fail (err : String)

/-- The LLM backend's behaviour for one `/chat` turn: the result of the
first `client.chat.completions.create` call, and the chunk sequence of
the (single) streaming call the handler makes afterwards. -/
structure Backend where
  first : Except String ModelResponse
  streamItems : List StreamItem

/-! Payloads returned by the gcp-helper service, as read by the agent's
tool handlers via `response.json()` / `data.get(...)`.  `Option` fields
correspond to `.get` accesses with a default; purely-numeric JSON fields
that the agent only interpolates into f-strings are modelled by their
printed text. -/

structure DiskRef where
  name : String
  boot : Bool

structure InstanceInfo where
  name : String
  zone : String
  status : String
  machine_type : String
  cpu_platform : Option String
  internal_ip : Option String
  external_ip : Option String
  disks : List DiskRef

structure InstancesData where
  instances : List InstanceInfo
  count : Option Int
  project_id : Option String

structure DiskInfo where
  name : String
  zone : String
  size_gb : String
  type : String
  status : String
  users : List String

structure DisksData where
  disks : List DiskInfo
  count : Option Int
  total_size_gb : Option String
  project_id : Option String

structure CostInstance where
  name : String
  machine_type : String
  monthly_cost_usd : String

structure CostData where
  project_id : Option String
  total_compute_cost_usd : Option String
  estimated_disk_cost_usd : Option String
  estimated_total_monthly_cost_usd : Option String
  total_disk_gb : Option String
  compute_instances : List CostInstance
  note : Option String

structure BucketInfo where
  name : String
  size_gb : Option String
  monthly_cost_usd : Option String

structure BucketsData where
  buckets : List BucketInfo
  count : Option Int
  project_id : Option String
  total_size_gb : Option String
  total_monthly_cost_usd : Option String

structure BucketCreateData where
  name : Option String
  location : Option String
  storage_class : Option String

structure InstanceCreateData where
  operation : Option String

/-- The gcp-helper service's replies for the turn under consideration;
`.error e` models the `requests` call (or `raise_for_status`) raising,
with `str(e) = e`. -/
structure NetOracle where
  instancesResp : Except String InstancesData
  disksResp : Except String DisksData
  costResp : Except String CostData
  bucketsResp : Except String BucketsData
  createBucketResp : Except String BucketCreateData
  createInstanceResp : Except String InstanceCreateData

/-! ### Tool handlers (agent.py lines 35–222) -/

/-- Truthiness of `instance.get(k)` for string-valued optional fields. -/
def optTruthy : Option String → Bool
  | some s => s ≠ ""
  | Option.none => false

def diskLine (d : DiskRef) : String :=
  "    - " ++ d.name ++ " (Boot: " ++ (if d.boot then "True" else "False") ++ ")\n"

def instanceBlock (i : InstanceInfo) : String :=
  "- Name: " ++ i.name ++ "\n" ++
  "  Zone: " ++ i.zone ++ "\n" ++
  "  Status: " ++ i.status ++ "\n" ++
  "  Machine Type: " ++ i.machine_type ++ "\n" ++
  "  CPU Platform: " ++ i.cpu_platform.getD "N/A" ++ "\n" ++
  (if optTruthy i.internal_ip then "  Internal IP: " ++ i.internal_ip.getD "" ++ "\n" else "") ++
  (if optTruthy i.external_ip then "  External IP: " ++ i.external_ip.getD "" ++ "\n" else "") ++
  (if !i.disks.isEmpty then
    "  Disks: " ++ toString i.disks.length ++ " attached\n" ++ String.join (i.disks.map diskLine)
  else "") ++
  "\n"

def get_gcp_instances (net : NetOracle) : String :=
  match net.instancesResp with
  | .error e => "Error fetching GCP instances: " ++ e
  | .ok data =>
    if data.count.getD 0 = 0 then
      "No compute instances found in project " ++ data.project_id.getD "unknown" ++ "."
    else
      "Found " ++ toString (data.count.getD 0) ++ " compute instance(s) in project " ++
        data.project_id.getD "unknown" ++ ":\n\n" ++
        String.join (data.instances.map instanceBlock)

def diskBlock (d : DiskInfo) : String :=
  "- Name: " ++ d.name ++ "\n" ++
  "  Zone: " ++ d.zone ++ "\n" ++
  "  Size: " ++ d.size_gb ++ " GB\n" ++
  "  Type: " ++ d.type ++ "\n" ++
  "  Status: " ++ d.status ++ "\n" ++
  (if !d.users.isEmpty then "  Attached to: " ++ String.intercalate ", " d.users ++ "\n" else "") ++
  "\n"

def list_gcp_disks (net : NetOracle) : String :=
  match net.disksResp with
  | .error e => "Error fetching GCP disks: " ++ e
  | .ok data =>
    if data.count.getD 0 = 0 then
      "No disks found in project " ++ data.project_id.getD "unknown" ++ "."
    else
      "Found " ++ toString (data.count.getD 0) ++ " disk(s) in project " ++
        data.project_id.getD "unknown" ++ " (Total: " ++ data.total_size_gb.getD "0" ++
        " GB):\n\n" ++ String.join (data.disks.map diskBlock)

def costLine (i : CostInstance) : String :=
  "  - " ++ i.name ++ " (" ++ i.machine_type ++ "): $" ++ i.monthly_cost_usd ++ "/month\n"

def estimate_gcp_cost (net : NetOracle) : String :=
  match net.costResp with
  | .error e => "Error estimating GCP cost: " ++ e
  | .ok data =>
    "Cost Estimate for project " ++ data.project_id.getD "unknown" ++ ":\n\n" ++
    "Running Compute Instances:\n" ++
    String.join (data.compute_instances.map costLine) ++
    "\nTotal Compute Cost: $" ++ data.total_compute_cost_usd.getD "0" ++ "/month\n" ++
    "Total Disk Cost: $" ++ data.estimated_disk_cost_usd.getD "0" ++ "/month (" ++
      data.total_disk_gb.getD "0" ++ " GB)\n" ++
    "Estimated Total: $" ++ data.estimated_total_monthly_cost_usd.getD "0" ++ "/month\n\n" ++
    "Note: " ++ data.note.getD "These are estimates" ++ "\n"

def bucketLines : Nat → List BucketInfo → String
  | _, [] => ""
  | i, b :: rest =>
    toString i ++ ". " ++ b.name ++ ": " ++ b.size_gb.getD "0" ++ "GB, $" ++
      b.monthly_cost_usd.getD "0" ++ "/mo\n" ++ bucketLines (i + 1) rest

def list_gcp_buckets (net : NetOracle) : String :=
  match net.bucketsResp with
  | .error e => "Error fetching GCP buckets: " ++ e
  | .ok data =>
    if data.count.getD 0 = 0 then
      "No storage buckets found in project " ++ data.project_id.getD "unknown" ++ "."
    else
      "Found " ++ toString (data.count.getD 0) ++ " bucket(s):\n" ++
      bucketLines 1 data.buckets ++
      "\nTotal: " ++ data.total_size_gb.getD "0" ++ "GB, $" ++
        data.total_monthly_cost_usd.getD "0" ++ "/month"

/-- The interactive prompt returned when location/storage class are falsy. -/
def bucketPrompt (name : PyVal) : String :=
  "To create bucket \x27" ++ pyStr name ++ "\x27, please specify:\n- Location (options: " ++
  "US, EU, ASIA, us-central1, europe-west1" ++ ")\n- Storage class (options: " ++
  "STANDARD, NEARLINE, COLDLINE, ARCHIVE" ++
  ")\n\nOr say \x27use defaults\x27 for STANDARD class in US."

def create_gcp_bucket (net : NetOracle) (name location storage_class : PyVal) : String :=
  if !pyTruthy name then
    "Error: Bucket name is required."
  else if !pyTruthy location || !pyTruthy storage_class then
    bucketPrompt name
  else
    match net.createBucketResp with
    | .error e => "Error creating GCP bucket: " ++ e
    | .ok data =>
      "✅ Bucket created successfully:\n" ++
      "  Name: " ++ (match data.name with | some s => s | Option.none => "None") ++ "\n" ++
      "  Location: " ++ (match data.location with | some s => s | Option.none => "None") ++ "\n" ++
      "  Storage Class: " ++
        (match data.storage_class with | some s => s | Option.none => "None") ++ "\n"

/-- The interactive prompt returned when zone/machine type are falsy. -/
def instancePrompt (name : PyVal) : String :=
  "To create instance \x27" ++ pyStr name ++ "\x27, please specify:\n- Zone (options: " ++
  "us-central1-a, us-east1-b, europe-west1-b" ++ ")\n- Machine type (options: " ++
  "e2-micro (cheapest), e2-small, e2-medium, e2-standard-2, e2-standard-4" ++
  ")\n\nOr say \x27use defaults\x27 for e2-micro in us-central1-a."

def create_gcp_instance (net : NetOracle) (name zone machine_type : PyVal) : String :=
  if !pyTruthy name then
    "Error: Instance name is required. Please provide a name for the VM."
  else if !pyTruthy zone || !pyTruthy machine_type then
    instancePrompt name
  else
    match net.createInstanceResp with
    | .error e => "Error creating GCP instance: " ++ e
    | .ok data =>
      "✅ Instance creation initiated:\n" ++
      "  Name: " ++ pyStr name ++ "\n" ++
      "  Zone: " ++ pyStr zone ++ "\n" ++
      "  Machine Type: " ++ pyStr machine_type ++ "\n" ++
      "  Operation: " ++ data.operation.getD "N/A" ++ "\n" ++
      "\nThe instance is being created and will be available shortly."

/-- The unknown-tool notice of `execute_tool`'s final branch
(`available_tools` inlined). -/
def unknownToolNotice (tool_name : String) : String :=
  "I apologize, but I don\x27t have the capability to perform \x27" ++ tool_name ++
    "\x27. Available tools: get_gcp_instances, list_gcp_disks, list_gcp_buckets, " ++
    "estimate_gcp_cost, create_gcp_bucket, create_gcp_instance"

/-- `execute_tool` (agent.py lines 326–348).  `.error` models an uncaught
Python exception (an `AttributeError` from calling `.get` on a non-dict
arguments value); the unknown-tool branch returns normally. -/
def execute_tool (net : NetOracle) (tool_name : String) (arguments : PyVal) :
    Except String String :=
  if tool_name = "get_gcp_instances" then .ok (get_gcp_instances net)
  else if tool_name = "list_gcp_disks" then .ok (list_gcp_disks net)
  else if tool_name = "list_gcp_buckets" then .ok (list_gcp_buckets net)
  else if tool_name = "estimate_gcp_cost" then .ok (estimate_gcp_cost net)
  else if tool_name = "create_gcp_bucket" then
    match arguments with
    | .obj fields =>
      let name := (dictLookup fields "name").getD .none
      let location := (dictLookup fields "location").getD (.str "US")
      let storage_class := (dictLookup fields "storage_class").getD (.str "STANDARD")
      .ok (create_gcp_bucket net name location storage_class)
    | _ => .error "AttributeError: arguments object has no attribute get"
  else if tool_name = "create_gcp_instance" then
    match arguments with
    | .obj fields =>
      let name := (dictLookup fields "name").getD .none
      let zone := (dictLookup fields "zone").getD (.str "us-central1-a")
      let machine_type := (dictLookup fields "machine_type").getD (.str "e2-micro")
      .ok (create_gcp_instance net name zone machine_type)
    | _ => .error "AttributeError: arguments object has no attribute get"
  else
    .ok (unknownToolNotice tool_name)

/-! ### The /chat route (agent.py lines 355–571) -/

/-- The fixed system prompt (agent.py lines 386–419). -/
def systemPrompt : String :=
  "You are a helpful AI assistant for managing Google Cloud Platform resources.\n\n" ++
  "CRITICAL: Questions about YOUR capabilities or what you CAN do should be answered " ++
  "directly WITHOUT calling any tools!\n\n" ++
  "CAPABILITIES:\n" ++
  "- View compute instances (VMs) and their details\n" ++
  "- List disks and storage information\n" ++
  "- View storage buckets\n" ++
  "- Estimate monthly costs for compute resources\n" ++
  "- Create new compute instances and storage buckets\n\n" ++
  "TOOL USAGE RULES - READ CAREFULLY:\n\n" ++
  "DO NOT call tools for meta/capability questions:\n" ++
  "- \"What can you do?\" or \"What can you do for me?\" → Answer directly with " ++
  "capabilities list above\n" ++
  "- \"What are your features?\" → Answer directly with capabilities list\n" ++
  "- \"How do I...?\" or \"Can you help me with...?\" → Provide guidance, no tools\n" ++
  "- \"Help\" → Answer directly with capabilities list\n\n" ++
  "ONLY call tools for specific data/action requests:\n" ++
  "- \"Show me my instances\" or \"List my VMs\" → call get_gcp_instances\n" ++
  "- \"What instances do I have?\" → call get_gcp_instances\n" ++
  "- \"List my disks\" → call list_gcp_disks\n" ++
  "- \"Show buckets\" → call list_gcp_buckets\n" ++
  "- \"What\x27s my cost?\" or \"Estimate costs\" → call estimate_gcp_cost\n" ++
  "- \"Create instance named X\" → call create_gcp_instance (only with name + zone + " ++
  "machine_type OR \x27defaults\x27)\n" ++
  "- \"Create bucket named Y\" → call create_gcp_bucket\n\n" ++
  "OTHER RULES:\n" ++
  "1. ALWAYS include tool results verbatim in your response - NEVER summarize\n" ++
  "2. When tool returns data, show it immediately - don\x27t ask questions about it\n" ++
  "3. Follow-up questions about already-retrieved data → Use conversation history, " ++
  "don\x27t call tools again\n\n" ++
  "Available tools: get_gcp_instances, list_gcp_disks, list_gcp_buckets, " ++
  "estimate_gcp_cost, create_gcp_bucket, create_gcp_instance"

/-- Python `l[-n:]`. -/
def lastN (n : Nat) (l : List α) : List α := l.drop (l.length - n)

/-- `if len(h) > 20: h = h[-20:]` — the retention trim applied after a
commit. -/
def trimHistory (h : List ChatMsg) : List ChatMsg :=
  if h.length > 20 then h.drop (h.length - 20) else h

/-- The `messages` list built by `chat` before the first LLM call:
system prompt, then the last 10 retained history entries, then the
current user utterance (agent.py lines 385–426). -/
def buildMessages (hist : List ChatMsg) (user_message : String) : List Message :=
  { role := "system", content := some systemPrompt } ::
    (lastN 10 hist).map (fun m => { role := m.role, content := some m.content }) ++
    [{ role := "user", content := some user_message }]

/-- An event yielded to the SSE client; the textual framing
`data: json.dumps(...)` is abstracted away: `reasoning`/`content`/`done`
are the three JSON shapes the generators emit. -/
inductive Event where
  | reasoning (msg : String)
  | content (text : String)
  | done
deriving DecidableEq

/-- History mutation performed by a generator between two yields: either
none, or the commit block (append the user/assistant pair, then trim). -/
inductive Effect where
  | noop
  | commit (user_msg : String) (assistant_msg : String)
deriving DecidableEq

/-- One yield of a generator, together with the history mutation the
generator performed since its previous yield (the code between two
`yield`s runs atomically: a client cancellation closes the generator at
a yield point only). -/
structure Segment where
  effect : Effect
  event : Event
deriving DecidableEq

/-- Result of running one of the two SSE generators to completion or to
an uncaught exception. -/
structure GenOutput where
  /-- The yields the generator produced, in order. -/
  segments : List Segment
  /-- `some e` if the generator raised `e` after producing `segments`. -/
  raised : Option String
  /-- The working `messages` list when the generator finished. -/
  messages : List Message
  /-- Executor invocations `(tool name, parsed arguments)`, in order. -/
  invocations : List (String × PyVal)

/-- Result of the tool-execution loop (agent.py lines 470–489): tool
messages appended, executor invocations made, and the first uncaught
exception (a `json.loads` failure or an executor exception), if any. -/
def runToolCalls (net : NetOracle) : List ToolCall → List Message × List (String × PyVal) × Option String
  | [] => ([], [], Option.none)
  | tc :: rest =>
    match jsonLoads tc.arguments with
    | Option.none =>
      ([], [], some ("json.decoder.JSONDecodeError in arguments of " ++ tc.name))
    | some args =>
      match execute_tool net tc.name args with
      | .error e => ([], [(tc.name, args)], some e)
      | .ok tool_result =>
        let r := runToolCalls net rest
        ({ role := "tool", content := some tool_result, tool_call_id := some tc.id } :: r.1,
          (tc.name, args) :: r.2.1, r.2.2)

/-- Consume the streaming response: the contents actually yielded (chunks
with truthy `delta.content`, in order) and the error if the iteration
raised. -/
def streamYields : List StreamItem → List String × Option String
  | [] => ([], Option.none)
  | .fail e :: _ => ([], some e)
  | .chunk c :: rest =>
    match c with
    | some s =>
      if s ≠ "" then
        let r := streamYields rest
        (s :: r.1, r.2)
      else streamYields rest
    | Option.none => streamYields rest

/-- The assistant message recording the tool calls (agent.py lines
454–467). -/
def assistantToolMsg (response : ModelResponse) : Message :=
  { role := "assistant", content := response.content, tool_calls := response.tool_calls }

/-- The SSE generator of the tool branch (agent.py lines 446–527):
yield the status event, then (on the next resume) record the assistant
message, execute every tool call in emission order, start the second
(streaming) LLM call, yield its content chunks, commit the
(user, full_response) pair and yield `done`. -/
def generate_with_tool_call (net : NetOracle) (streamItems : List StreamItem)
    (user_message : String) (messages0 : List Message) (response : ModelResponse) :
    GenOutput :=
  let tool_names := response.tool_calls.map (·.name)
  let reasoningSeg : Segment :=
    { effect := .noop, event := .reasoning ("🔧 Calling tool: " ++ String.intercalate ", " tool_names) }
  let m1 := messages0 ++ [assistantToolMsg response]
  let r := runToolCalls net response.tool_calls
  let m2 := m1 ++ r.1
  match r.2.2 with
  | some e => { segments := [reasoningSeg], raised := some e, messages := m2, invocations := r.2.1 }
  | Option.none =>
    let s := streamYields streamItems
    let contentSegs : List Segment := s.1.map fun c => { effect := .noop, event := .content c }
    match s.2 with
    | some e =>
      { segments := reasoningSeg :: contentSegs, raised := some e, messages := m2,
        invocations := r.2.1 }
    | Option.none =>
      let full_response := String.join s.1
      { segments := reasoningSeg :: contentSegs ++
          [{ effect := .commit user_message full_response, event := .done }],
        raised := Option.none, messages := m2, invocations := r.2.1 }

/-- The SSE generator of the direct branch (agent.py lines 542–562). -/
def generate (streamItems : List StreamItem) (user_message : String)
    (messages0 : List Message) : GenOutput :=
  let reasoningSeg : Segment :=
    { effect := .noop, event := .reasoning "💭 Responding directly (no tools needed)" }
  let s := streamYields streamItems
  let contentSegs : List Segment := s.1.map fun c => { effect := .noop, event := .content c }
  match s.2 with
  | some e =>
    { segments := reasoningSeg :: contentSegs, raised := some e, messages := messages0,
      invocations := [] }
  | Option.none =>
    let full_response := String.join s.1
    { segments := reasoningSeg :: contentSegs ++
        [{ effect := .commit user_message full_response, event := .done }],
      raised := Option.none, messages := messages0, invocations := [] }

/-- Outcome of the `/chat` route: a JSON error response (status 400/500),
or a streaming `Response` wrapping one of the two generators. -/
inductive ChatResult where
  | httpError (status : Nat) (msg : String)
  | stream (out : GenOutput)

/-- The `/chat` handler for one session's turn (agent.py lines 355–571):
`hist` is `conversation_histories[session_id]` at entry.  An empty
message gives 400; a failing first LLM call is caught by the outer
`except` and gives 500 with nothing streamed and nothing committed. -/
def chat (net : NetOracle) (backend : Backend) (hist : List ChatMsg)
    (user_message : String) : ChatResult :=
  if user_message = "" then .httpError 400 "No message provided"
  else
    let messages := buildMessages hist user_message
    match backend.first with
    | .error e => .httpError 500 e
    | .ok response =>
      if !response.tool_calls.isEmpty then
        .stream (generate_with_tool_call net backend.streamItems user_message messages response)
      else
        .stream (generate backend.streamItems user_message messages)

/-- Apply one generator effect to the session's retained history. -/
def applyEffect (h : List ChatMsg) : Effect → List ChatMsg
  | .noop => h
  | .commit u a =>
    trimHistory (h ++ [{ role := "user", content := u }, { role := "assistant", content := a }])

/-- The retained history after the client has consumed `k` events and
then disconnected (only the code up to the `k`-th yield has run). -/
def historyAfter (hist : List ChatMsg) (g : GenOutput) (k : Nat) : List ChatMsg :=
  (g.segments.take k).foldl (fun h s => applyEffect h s.effect) hist

/-- The retained history after the generator ran to its end. -/
def finalHistory (hist : List ChatMsg) (g : GenOutput) : List ChatMsg :=
  g.segments.foldl (fun h s => applyEffect h s.effect) hist

/-- The event stream delivered to the client. -/
def GenOutput.events (g : GenOutput) : List Event := g.segments.map (·.event)

/-- Projection used to state theorems about runs known to stream. -/
def getStream : ChatResult → GenOutput
  | .stream g => g
  | .httpError _ _ => { segments := [], raised := Option.none, messages := [], invocations := [] }

/-! ### Projections used in theorem statements -/

/-- The parsed arguments of a tool call (meaningful when `jsonLoads`
succeeds). -/
def parsedArgs (tc : ToolCall) : PyVal := (jsonLoads tc.arguments).getD .none

def exceptOk : Except ε α → Bool
  | .ok _ => true
  | .error _ => false

/-- The content of the tool message produced for `tc` (meaningful when
the executor returns normally). -/
def toolOutcome (net : NetOracle) (tc : ToolCall) : String :=
  match execute_tool net tc.name (parsedArgs tc) with
  | .ok r => r
  | .error _ => ""

/-- The tool message appended to the working list for `tc`. -/
def toolMsgOf (net : NetOracle) (tc : ToolCall) : Message :=
  { role := "tool", content := some (toolOutcome net tc), tool_call_id := some tc.id }

/-! ### The history-pairing invariant

Histories reachable from the empty history via committed turns consist
of consecutive (user, assistant) pairs. -/

/-- The history is a sequence of (user, assistant) message pairs. -/
inductive Paired : List ChatMsg → Prop
  | nil : Paired []
  | pair (u a : String) (t : List ChatMsg) :
      Paired t → Paired ({ role := "user", content := u } :: { role := "assistant", content := a } :: t)

/-! ### The gcloud helper's /execute endpoint (gcloud-helper/helper.py) -/

namespace GcloudHelper

/-- The fixed command whitelist (helper.py lines 7–13). -/
def ALLOWED_COMMANDS : List (String × List String) := [
  ("list_instances", ["gcloud", "compute", "instances", "list", "--format=json"]),
  ("list_zones", ["gcloud", "compute", "zones", "list", "--format=json"]),
  ("list_regions", ["gcloud", "compute", "regions", "list", "--format=json"]),
  ("list_machine_types", ["gcloud", "compute", "machine-types", "list", "--format=json"]),
  ("describe_project", ["gcloud", "compute", "project-info", "describe", "--format=json"])]

/-- Result of `subprocess.run(command, capture_output=True, text=True,
timeout=30)`. -/
structure SubprocResult where
  returncode : Int
  stdout : String
  stderr : String

/-- Outcome of one `/execute` request: HTTP status, JSON body, and the
list of subprocess command vectors that were spawned while handling it. -/
structure ExecOutcome where
  status : Nat
  body : PyVal
  spawned : List (List String)

/-- Result of the Python `command_name not in ALLOWED_COMMANDS` test:
string keys are looked up; unhashable values (lists, dicts) raise a
`TypeError`, caught by the outer `except` as a 500. -/
inductive LookupRes where
  | found (cmd : List String)
  | notFound
  | raisedTypeError

def allowedLookup : PyVal → LookupRes
  | .str s =>
    match ALLOWED_COMMANDS.lookup s with
    | some c => .found c
    | Option.none => .notFound
  | .list _ => .raisedTypeError
  | .obj _ => .raisedTypeError
  | _ => .notFound

/-- The `/execute` handler (helper.py lines 21–43).  `reqJson` is the
result of `request.get_json()` (`.error` when it raises); `runner` gives
the subprocess result for a command vector, `.error` modelling
`subprocess.run` raising (e.g. `TimeoutExpired`). -/
def execute_command (reqJson : Except String PyVal)
    (runner : List String → Except String SubprocResult) : ExecOutcome :=
  match reqJson with
  | .error e => ⟨500, .obj [("error", .str e)], []⟩
  | .ok data =>
    match data with
    | .obj fields =>
      let command_name := (dictLookup fields "command").getD .none
      match allowedLookup command_name with
      | .raisedTypeError => ⟨500, .obj [("error", .str "TypeError: unhashable type")], []⟩
      | .notFound => ⟨403, .obj [("error", .str "Command not allowed")], []⟩
      | .found command =>
        match runner command with
        | .error e => ⟨500, .obj [("error", .str e)], [command]⟩
        | .ok result =>
          if result.returncode = 0 then
            let output :=
              match jsonLoads result.stdout with
              | some v => v
              | Option.none => .str result.stdout
            ⟨200, .obj [("output", output)], [command]⟩
          else
            ⟨500, .obj [("error", .str result.stderr)], [command]⟩
    | _ => ⟨500, .obj [("error", .str "AttributeError: request body is not an object")], []⟩

end GcloudHelper

/-! ### Concrete fixtures used by witnesses and counterexamples -/

/-- A concrete gcp-helper environment: zero instances, failing disk and
cost endpoints, successful bucket/instance creation. -/
def netFix : NetOracle :=
  { instancesResp := .ok { instances := [], count := some 0, project_id := some "proj" },
    disksResp := .error "connection refused",
    costResp := .error "connection refused",
    bucketsResp := .ok
      { buckets := [], count := some 0, project_id := some "proj",
        total_size_gb := some "0", total_monthly_cost_usd := some "0" },
    createBucketResp := .ok
      { name := some "b1", location := some "US", storage_class := some "STANDARD" },
    createInstanceResp := .ok { operation := some "operation-123" } }

/-- Concrete tool calls issued by the backend stubs. -/
def tc1 : ToolCall := { id := "call_1", name := "get_gcp_instances", arguments := "{}" }

def tcBad : ToolCall := { id := "call_1", name := "get_gcp_instances", arguments := "not json" }

def tcUnknown : ToolCall := { id := "call_9", name := "delete_everything", arguments := "{}" }

def tcA : ToolCall := { id := "call_a", name := "get_gcp_instances", arguments := "{}" }

def tcB : ToolCall := { id := "call_b", name := "list_gcp_buckets", arguments := "{}" }

/-- First model response: one `get_gcp_instances` tool call. -/
def respOneTool : ModelResponse := { content := Option.none, tool_calls := [tc1] }

/-- First model response carrying arguments that are not valid JSON. -/
def respBadArgs : ModelResponse := { content := Option.none, tool_calls := [tcBad] }

/-- First model response naming an unregistered tool. -/
def respUnknown : ModelResponse := { content := Option.none, tool_calls := [tcUnknown] }

/-- First model response carrying two tool calls. -/
def respTwoTools : ModelResponse := { content := Option.none, tool_calls := [tcA, tcB] }

/-- Backend for the happy tool turn: one tool call, then a terminal
streamed answer. -/
def backendOneTool : Backend :=
  { first := Except.ok respOneTool,
    streamItems := [.chunk (some "No "), .chunk Option.none, .chunk (some ""),
      .chunk (some "instances.")] }

/-- Backend stub that always wants tools: its first response requests a
tool call and its streaming response never carries terminal content
(a tool-call-only streamed turn has no `delta.content`). -/
def backendAlwaysTool : Backend :=
  { first := Except.ok respOneTool, streamItems := [] }

/-- Backend whose tool call carries arguments that are not valid JSON. -/
def backendBadArgs : Backend :=
  { first := Except.ok respBadArgs, streamItems := [.chunk (some "unreached")] }

/-- Backend whose tool call names a tool absent from the dispatch table. -/
def backendUnknownTool : Backend :=
  { first := Except.ok respUnknown, streamItems := [.chunk (some "I cannot do that.")] }

/-- Backend issuing two tool calls in one model turn. -/
def backendTwoTools : Backend :=
  { first := Except.ok respTwoTools, streamItems := [.chunk (some "done listing")] }

/-- Backend answering directly, without tool calls. -/
def backendDirect : Backend :=
  { first := Except.ok { content := some "cap", tool_calls := [] },
    streamItems := [.chunk (some "I can "), .chunk (some "help.")] }

/-! ### Abbreviations for the three segment shapes the generators emit -/

def statusSeg (status : String) : Segment :=
  { effect := .noop, event := .reasoning status }

def contentSeg (c : String) : Segment :=
  { effect := .noop, event := .content c }

def doneSeg (u a : String) : Segment :=
  { effect := .commit u a, event := .done }

/-! ## Lemmas about the embedding -/

theorem trimHistory_length (l : List ChatMsg) : (trimHistory l).length = min l.length 20 := by
  unfold trimHistory
  split <;> simp <;> omega

theorem applyEffect_length_le (h : List ChatMsg) (e : Effect) (hh : h.length ≤ 20) :
    (applyEffect h e).length ≤ 20 := by
  cases e with
  | noop => exact hh
  | commit u a => simp [applyEffect, trimHistory_length]

theorem foldl_applyEffect_length (l : List Segment) (h : List ChatMsg) (hh : h.length ≤ 20) :
    (l.foldl (fun acc s => applyEffect acc s.effect) h).length ≤ 20 := by
  induction l generalizing h with
  | nil => simpa using hh
  | cons s t ih => exact ih _ (applyEffect_length_le _ _ hh)

theorem foldl_applyEffect_noop (l : List Segment) (h : List ChatMsg)
    (hl : ∀ s ∈ l, s.effect = Effect.noop) :
    l.foldl (fun acc s => applyEffect acc s.effect) h = h := by
  induction l generalizing h with
  | nil => rfl
  | cons s t ih =>
    have hs := hl s (by simp)
    have ht : ∀ x ∈ t, x.effect = Effect.noop := fun x hx => hl x (by simp [hx])
    simp only [List.foldl_cons, hs, applyEffect]
    exact ih _ ht

theorem lastN_length_le (n : Nat) (l : List α) : (lastN n l).length ≤ n := by
  simp [lastN]
  omega

theorem Paired.append_pair {l : List ChatMsg} (h : Paired l) (u a : String) :
    Paired (l ++ [{ role := "user", content := u }, { role := "assistant", content := a }]) := by
  induction h with
  | nil => exact Paired.pair u a [] Paired.nil
  | pair u' a' t ht ih => simpa using Paired.pair u' a' _ ih

theorem Paired.length_even {l : List ChatMsg} (h : Paired l) : l.length % 2 = 0 := by
  induction h with
  | nil => rfl
  | pair u a t ht ih => simp [List.length_cons]; omega

theorem Paired.drop_two {l : List ChatMsg} (h : Paired l) : Paired (l.drop 2) := by
  cases h with
  | nil => exact Paired.nil
  | pair u a t ht => simpa using ht

theorem Paired.drop_even {l : List ChatMsg} (h : Paired l) (k : Nat) : Paired (l.drop (2 * k)) := by
  induction k generalizing l with
  | zero => simpa using h
  | succ n ih =>
    have hdd := ih h.drop_two
    rw [List.drop_drop] at hdd
    have heq : 2 + 2 * n = 2 * (n + 1) := by omega
    rwa [heq] at hdd

theorem Paired.trim {l : List ChatMsg} (h : Paired l) : Paired (trimHistory l) := by
  unfold trimHistory
  split
  · have he := h.length_even
    obtain ⟨k, hk⟩ : ∃ k, l.length - 20 = 2 * k := ⟨(l.length - 20) / 2, by omega⟩
    rw [hk]
    exact h.drop_even k
  · exact h

theorem Paired.applyEff {l : List ChatMsg} (h : Paired l) (e : Effect) :
    Paired (applyEffect l e) := by
  cases e with
  | noop => simpa [applyEffect] using h
  | commit u a => exact (h.append_pair u a).trim

theorem Paired.foldlSegs {l : List ChatMsg} (h : Paired l) (segs : List Segment) :
    Paired (segs.foldl (fun acc s => applyEffect acc s.effect) l) := by
  induction segs generalizing l with
  | nil => simpa using h
  | cons s t ih => exact ih (h.applyEff s.effect)

theorem runToolCalls_ok (net : NetOracle) (tcs : List ToolCall)
    (h : ∀ tc ∈ tcs, (jsonLoads tc.arguments).isSome ∧
      exceptOk (execute_tool net tc.name (parsedArgs tc)) = true) :
    runToolCalls net tcs =
      (tcs.map (toolMsgOf net), tcs.map (fun tc => (tc.name, parsedArgs tc)), Option.none) := by
  induction tcs with
  | nil => rfl
  | cons tc rest ih =>
    obtain ⟨hsome, hok⟩ := h tc (by simp)
    obtain ⟨a, ha⟩ := Option.isSome_iff_exists.mp hsome
    have hpa : parsedArgs tc = a := by simp [parsedArgs, ha]
    rw [hpa] at hok
    obtain ⟨r, hr⟩ : ∃ r, execute_tool net tc.name a = Except.ok r := by
      rcases he : execute_tool net tc.name a with e | r
      · rw [he] at hok; simp [exceptOk] at hok
      · exact ⟨r, rfl⟩
    have hrest := ih (fun x hx => h x (by simp [hx]))
    simp [runToolCalls, ha, hr, hrest, toolMsgOf, toolOutcome, hpa]

theorem runToolCalls_fail (net : NetOracle) (tcs : List ToolCall) (tc : ToolCall)
    (hmem : tc ∈ tcs) (hbad : jsonLoads tc.arguments = Option.none) :
    ((runToolCalls net tcs).2.2).isSome = true := by
  induction tcs with
  | nil => simp at hmem
  | cons hd rest ih =>
    rcases List.mem_cons.mp hmem with heq | hmem'
    · subst heq; simp [runToolCalls, hbad]
    · rcases hj : jsonLoads hd.arguments with _ | a
      · simp [runToolCalls, hj]
      · rcases he : execute_tool net hd.name a with e | r
        · simp [runToolCalls, hj, he]
        · simpa [runToolCalls, hj, he] using ih hmem'

theorem runToolCalls_invs_length (net : NetOracle) (tcs : List ToolCall) :
    (runToolCalls net tcs).2.1.length ≤ tcs.length := by
  induction tcs with
  | nil => simp [runToolCalls]
  | cons hd rest ih =>
    rcases hj : jsonLoads hd.arguments with _ | a
    · simp [runToolCalls, hj]
    · rcases he : execute_tool net hd.name a with e | r
      · simp [runToolCalls, hj, he]
      · simp only [runToolCalls, hj, he, List.length_cons]
        omega

/-- The status event heading the tool branch. -/
theorem gwtc_head (net : NetOracle) (items : List StreamItem) (u : String)
    (m0 : List Message) (resp : ModelResponse) :
    (generate_with_tool_call net items u m0 resp).segments.head? =
      some (statusSeg ("🔧 Calling tool: " ++
        String.intercalate ", " (resp.tool_calls.map (·.name)))) := by
  unfold generate_with_tool_call
  rcases hr : (runToolCalls net resp.tool_calls).2.2 with _ | e
  · rcases hs : (streamYields items).2 with _ | e <;> simp [hr, hs, statusSeg]
  · simp [hr, statusSeg]

theorem gwtc_raised_none (net : NetOracle) (items : List StreamItem) (u : String)
    (m0 : List Message) (resp : ModelResponse) :
    (generate_with_tool_call net items u m0 resp).raised = Option.none ↔
      (runToolCalls net resp.tool_calls).2.2 = Option.none ∧
      (streamYields items).2 = Option.none := by
  unfold generate_with_tool_call
  rcases hr : (runToolCalls net resp.tool_calls).2.2 with _ | e
  · rcases hs : (streamYields items).2 with _ | e <;> simp [hr, hs]
  · simp [hr]

theorem gwtc_success (net : NetOracle) (items : List StreamItem) (u : String)
    (m0 : List Message) (resp : ModelResponse)
    (hr : (runToolCalls net resp.tool_calls).2.2 = Option.none)
    (hs : (streamYields items).2 = Option.none) :
    (generate_with_tool_call net items u m0 resp).segments =
      statusSeg ("🔧 Calling tool: " ++
        String.intercalate ", " (resp.tool_calls.map (·.name))) ::
      (streamYields items).1.map contentSeg ++
      [doneSeg u (String.join (streamYields items).1)] := by
  unfold generate_with_tool_call
  simp only [hr, hs]
  simp [statusSeg, contentSeg, doneSeg]

theorem gwtc_raised_shape (net : NetOracle) (items : List StreamItem) (u : String)
    (m0 : List Message) (resp : ModelResponse)
    (h : (generate_with_tool_call net items u m0 resp).raised ≠ Option.none) :
    ∀ s ∈ (generate_with_tool_call net items u m0 resp).segments,
      s.effect = Effect.noop ∧ s.event ≠ Event.done := by
  revert h
  unfold generate_with_tool_call
  rcases hr : (runToolCalls net resp.tool_calls).2.2 with _ | e
  · rcases hs : (streamYields items).2 with _ | e
    · simp [hr, hs]
    · simp only [hr, hs]
      intro _ s hmem
      simp only [List.mem_cons] at hmem
      rcases hmem with rfl | hmem
      · simp
      · obtain ⟨c, _, rfl⟩ := List.mem_map.mp hmem
        simp
  · simp only [hr]
    intro _ s hmem
    simp only [List.mem_singleton] at hmem
    subst hmem
    simp

theorem gwtc_messages (net : NetOracle) (items : List StreamItem) (u : String)
    (m0 : List Message) (resp : ModelResponse) :
    (generate_with_tool_call net items u m0 resp).messages =
      m0 ++ assistantToolMsg resp :: (runToolCalls net resp.tool_calls).1 ∧
    (generate_with_tool_call net items u m0 resp).invocations =
      (runToolCalls net resp.tool_calls).2.1 := by
  unfold generate_with_tool_call
  rcases hr : (runToolCalls net resp.tool_calls).2.2 with _ | e
  · rcases hs : (streamYields items).2 with _ | e <;> simp [hr, hs]
  · simp [hr]

theorem gen_head (items : List StreamItem) (u : String) (m0 : List Message) :
    (generate items u m0).segments.head? =
      some (statusSeg "💭 Responding directly (no tools needed)") := by
  unfold generate
  rcases hs : (streamYields items).2 with _ | e <;> simp [hs, statusSeg]

theorem gen_raised_none (items : List StreamItem) (u : String) (m0 : List Message) :
    (generate items u m0).raised = Option.none ↔ (streamYields items).2 = Option.none := by
  unfold generate
  rcases hs : (streamYields items).2 with _ | e <;> simp [hs]

theorem gen_success (items : List StreamItem) (u : String) (m0 : List Message)
    (hs : (streamYields items).2 = Option.none) :
    (generate items u m0).segments =
      statusSeg "💭 Responding directly (no tools needed)" ::
      (streamYields items).1.map contentSeg ++
      [doneSeg u (String.join (streamYields items).1)] := by
  unfold generate
  simp only [hs]
  simp [statusSeg, contentSeg, doneSeg]

theorem gen_raised_shape (items : List StreamItem) (u : String) (m0 : List Message)
    (h : (generate items u m0).raised ≠ Option.none) :
    ∀ s ∈ (generate items u m0).segments,
      s.effect = Effect.noop ∧ s.event ≠ Event.done := by
  revert h
  unfold generate
  rcases hs : (streamYields items).2 with _ | e
  · simp [hs]
  · simp only [hs]
    intro _ s hmem
    simp only [List.mem_cons] at hmem
    rcases hmem with rfl | hmem
    · simp
    · obtain ⟨c, _, rfl⟩ := List.mem_map.mp hmem
      simp

theorem gen_messages (items : List StreamItem) (u : String) (m0 : List Message) :
    (generate items u m0).messages = m0 ∧ (generate items u m0).invocations = [] := by
  unfold generate
  rcases hs : (streamYields items).2 with _ | e <;> simp [hs]

/-- Inversion of the `/chat` handler: a streamed result comes from one of
the two generators, applied to the messages built from the windowed
history. -/
theorem chat_stream_cases (net : NetOracle) (backend : Backend) (hist : List ChatMsg)
    (u : String) (g : GenOutput) (hg : chat net backend hist u = .stream g) :
    u ≠ "" ∧ ∃ resp, backend.first = .ok resp ∧
      ((resp.tool_calls ≠ [] ∧
        g = generate_with_tool_call net backend.streamItems u (buildMessages hist u) resp) ∨
       (resp.tool_calls = [] ∧
        g = generate backend.streamItems u (buildMessages hist u))) := by
  by_cases hu : u = ""
  · simp [chat, hu] at hg
  · refine ⟨hu, ?_⟩
    rcases hfirst : backend.first with e | resp
    · simp [chat, hu, hfirst] at hg
    · refine ⟨resp, rfl, ?_⟩
      rcases htc : resp.tool_calls with _ | ⟨tc, rest⟩
      · right
        refine ⟨rfl, ?_⟩
        simp [chat, hu, hfirst, htc] at hg
        rw [← hg]
      · left
        refine ⟨by simp, ?_⟩
        simp [chat, hu, hfirst, htc] at hg
        rw [← hg]

/-- Every segment strictly before the last one carries no history
mutation (so a cancellation before `done` observes an unchanged
history), for any streamed turn. -/
theorem segments_prefix_noop (net : NetOracle) (backend : Backend) (hist : List ChatMsg)
    (u : String) (g : GenOutput) (hg : chat net backend hist u = .stream g) :
    ∀ k, k < g.segments.length → ∀ s ∈ g.segments.take k, s.effect = Effect.noop := by
  obtain ⟨hu, resp, hfirst, hcase⟩ := chat_stream_cases net backend hist u g hg
  have main : ∀ (segs : List Segment) (status : String) (cs : List String) (d : Segment),
      segs = { effect := Effect.noop, event := Event.reasoning status } ::
        cs.map (fun c => { effect := Effect.noop, event := Event.content c }) ++ [d] →
      ∀ k, k < segs.length → ∀ s ∈ segs.take k, s.effect = Effect.noop := by
    intro segs status cs d hsegs k hk s hs
    subst hsegs
    have hk' : k ≤ (({ effect := Effect.noop, event := Event.reasoning status } : Segment) ::
        cs.map (fun c => { effect := Effect.noop, event := Event.content c })).length := by
      simp at hk ⊢
      omega
    rw [show ({ effect := Effect.noop, event := Event.reasoning status } : Segment) ::
        cs.map (fun c => { effect := Effect.noop, event := Event.content c }) ++ [d] =
        ({ effect := Effect.noop, event := Event.reasoning status } ::
         cs.map (fun c => { effect := Effect.noop, event := Event.content c })) ++ [d] from by simp,
      List.take_append_of_le_length hk'] at hs
    have hs' := List.take_subset _ _ hs
    simp only [List.mem_cons] at hs'
    rcases hs' with rfl | hs'
    · rfl
    · obtain ⟨c, _, rfl⟩ := List.mem_map.mp hs'
      rfl
  rcases hcase with ⟨hne, rfl⟩ | ⟨hemp, rfl⟩
  · rcases hraised : (generate_with_tool_call net backend.streamItems u
        (buildMessages hist u) resp).raised with _ | e
    · obtain ⟨hr, hs⟩ := (gwtc_raised_none net backend.streamItems u
        (buildMessages hist u) resp).mp hraised
      exact main _ _ _ _ (gwtc_success net backend.streamItems u (buildMessages hist u) resp hr hs)
    · intro k hk s hs
      exact (gwtc_raised_shape net backend.streamItems u (buildMessages hist u) resp
        (by simp [hraised]) s (List.take_subset _ _ hs)).1
  · rcases hraised : (generate backend.streamItems u (buildMessages hist u)).raised with _ | e
    · exact main _ _ _ _ (gen_success backend.streamItems u (buildMessages hist u)
        ((gen_raised_none backend.streamItems u (buildMessages hist u)).mp hraised))
    · intro k hk s hs
      exact (gen_raised_shape backend.streamItems u (buildMessages hist u)
        (by simp [hraised]) s (List.take_subset _ _ hs)).1

/-- Folding a full successful-generator segment list commits exactly the
(user, answer) pair and trims. -/
theorem foldl_shape (hist : List ChatMsg) (status : String) (cs : List String) (u a : String) :
    (statusSeg status :: cs.map contentSeg ++ [doneSeg u a]).foldl
        (fun acc s => applyEffect acc s.effect) hist =
      trimHistory (hist ++
        [{ role := "user", content := u }, { role := "assistant", content := a }]) := by
  have hnoop : ∀ s ∈ statusSeg status :: cs.map contentSeg, s.effect = Effect.noop := by
    intro s hs
    rcases List.mem_cons.mp hs with rfl | hs
    · rfl
    · obtain ⟨c, _, rfl⟩ := List.mem_map.mp hs
      rfl
  rw [show statusSeg status :: cs.map contentSeg ++ [doneSeg u a] =
      (statusSeg status :: cs.map contentSeg) ++ [doneSeg u a] from rfl,
    List.foldl_append, foldl_applyEffect_noop _ _ hnoop]
  rfl

theorem events_shape (status : String) (cs : List String) (u a : String) :
    (statusSeg status :: cs.map contentSeg ++ [doneSeg u a]).map (·.event) =
      Event.reasoning status :: cs.map Event.content ++ [Event.done] := by
  simp [statusSeg, contentSeg, doneSeg, List.map_map, Function.comp]

/-! ## Claim theorems -/

/-- C3: persistence per turn is all-or-nothing: for every streamed turn,
cancelling before the `done` event (consuming any proper prefix of the
event stream) leaves the Conversation exactly as it was; a turn whose
generator raises commits nothing even when fully consumed; a completed
turn commits exactly the (user utterance, final answer) pair in the same
step that emits `done`; and every observable history state consists of
(user, assistant) pairs. -/
theorem c3_atomic_commit (net : NetOracle) (backend : Backend) (hist : List ChatMsg)
    (u : String) (g : GenOutput) (hg : chat net backend hist u = .stream g) :
    (∀ k, k < g.segments.length → historyAfter hist g k = hist) ∧
    (g.raised ≠ Option.none → finalHistory hist g = hist) ∧
    (g.raised = Option.none →
      ∃ ans, finalHistory hist g = trimHistory (hist ++
          [{ role := "user", content := u }, { role := "assistant", content := ans }]) ∧
        g.events.getLast? = some Event.done) ∧
    (∀ k, Paired hist → Paired (historyAfter hist g k)) := by
  obtain ⟨hu, resp, hfirst, hcase⟩ := chat_stream_cases net backend hist u g hg
  refine ⟨?_, ?_, ?_, ?_⟩
  · intro k hk
    unfold historyAfter
    exact foldl_applyEffect_noop _ _ (segments_prefix_noop net backend hist u g hg k hk)
  · intro hraised
    have hnoop : ∀ s ∈ g.segments, s.effect = Effect.noop := by
      rcases hcase with ⟨hne, rfl⟩ | ⟨hemp, rfl⟩
      · exact fun s hs => (gwtc_raised_shape _ _ _ _ _ hraised s hs).1
      · exact fun s hs => (gen_raised_shape _ _ _ hraised s hs).1
    unfold finalHistory
    exact foldl_applyEffect_noop _ _ hnoop
  · intro hok
    refine ⟨String.join (streamYields backend.streamItems).1, ?_, ?_⟩ <;>
      rcases hcase with ⟨hne, rfl⟩ | ⟨hemp, rfl⟩
    · obtain ⟨hr, hs⟩ := (gwtc_raised_none net backend.streamItems u
        (buildMessages hist u) resp).mp hok
      unfold finalHistory
      rw [gwtc_success net backend.streamItems u (buildMessages hist u) resp hr hs]
      exact foldl_shape hist _ _ u _
    · have hs := (gen_raised_none backend.streamItems u (buildMessages hist u)).mp hok
      unfold finalHistory
      rw [gen_success backend.streamItems u (buildMessages hist u) hs]
      exact foldl_shape hist _ _ u _
    · obtain ⟨hr, hs⟩ := (gwtc_raised_none net backend.streamItems u
        (buildMessages hist u) resp).mp hok
      unfold GenOutput.events
      rw [gwtc_success net backend.streamItems u (buildMessages hist u) resp hr hs,
        events_shape]
      rw [show Event.reasoning _ :: (streamYields backend.streamItems).1.map Event.content ++
          [Event.done] = (Event.reasoning ("🔧 Calling tool: " ++ String.intercalate ", "
            (resp.tool_calls.map (·.name))) ::
          (streamYields backend.streamItems).1.map Event.content) ++ [Event.done] from rfl]
      exact List.getLast?_concat _
    · have hs := (gen_raised_none backend.streamItems u (buildMessages hist u)).mp hok
      unfold GenOutput.events
      rw [gen_success backend.streamItems u (buildMessages hist u) hs, events_shape]
      rw [show Event.reasoning _ :: (streamYields backend.streamItems).1.map Event.content ++
          [Event.done] = (Event.reasoning "💭 Responding directly (no tools needed)" ::
          (streamYields backend.streamItems).1.map Event.content) ++ [Event.done] from rfl]
      exact List.getLast?_concat _
  · intro k hp
    unfold historyAfter
    exact hp.foldlSegs _

/-- C3 witness. -/
theorem c3_atomic_commit_witness :
    historyAfter [] (getStream (chat netFix backendOneTool [] "List my VMs")) 2 = [] ∧
    Paired (historyAfter [] (getStream (chat netFix backendOneTool [] "List my VMs")) 2) := by
  have h := c3_atomic_commit netFix backendOneTool []
    "List my VMs" (getStream (chat netFix backendOneTool [] "List my VMs")) rfl
  exact ⟨h.1 2 (by decide), h.2.2.2 2 Paired.nil⟩

/-- C4: the retained Conversation never exceeds R = 20 messages after any
prefix of a turn's effects (given it respected the bound before), and
every model call of the turn is supplied at most the W = 10 most recent
retained messages — the working `messages` list contains exactly
`lastN 10 hist` as its history-derived portion. -/
theorem c4_retention_window (net : NetOracle) (backend : Backend) (hist : List ChatMsg)
    (u : String) (g : GenOutput) (hg : chat net backend hist u = .stream g)
    (hlen : hist.length ≤ 20) :
    (∀ k, (historyAfter hist g k).length ≤ 20) ∧
    (lastN 10 hist).length ≤ 10 ∧
    ∃ rest, g.messages = { role := "system", content := some systemPrompt } ::
      ((lastN 10 hist).map fun m => ({ role := m.role, content := some m.content } : Message)) ++
      ({ role := "user", content := some u } :: rest) := by
  obtain ⟨hu, resp, hfirst, hcase⟩ := chat_stream_cases net backend hist u g hg
  refine ⟨?_, lastN_length_le 10 hist, ?_⟩
  · intro k
    unfold historyAfter
    exact foldl_applyEffect_length _ _ hlen
  · rcases hcase with ⟨hne, rfl⟩ | ⟨hemp, rfl⟩
    · refine ⟨assistantToolMsg resp ::
        (runToolCalls net resp.tool_calls).1, ?_⟩
      rw [(gwtc_messages net backend.streamItems u (buildMessages hist u) resp).1]
      simp [buildMessages]
    · refine ⟨[], ?_⟩
      rw [(gen_messages backend.streamItems u (buildMessages hist u)).1]
      simp [buildMessages]

/-- C4 witness. -/
theorem c4_retention_window_witness :
    (historyAfter [] (getStream (chat netFix backendOneTool [] "List my VMs")) 4).length ≤ 20 ∧
    (lastN 10 ([] : List ChatMsg)).length ≤ 10 := by
  have h := c4_retention_window netFix backendOneTool [] "List my VMs"
    (getStream (chat netFix backendOneTool [] "List my VMs")) rfl (by decide)
  exact ⟨h.1 4, h.2.1⟩

/-- C8: for every turn whose generator completes, the event stream is a
single status event, then content deltas whose concatenation is the
final answer committed for the turn, then exactly one terminal `done`
event with nothing after it. -/
theorem c8_event_order (net : NetOracle) (backend : Backend) (hist : List ChatMsg)
    (u : String) (g : GenOutput) (hg : chat net backend hist u = .stream g)
    (hok : g.raised = Option.none) :
    ∃ status contents,
      g.events = Event.reasoning status :: contents.map Event.content ++ [Event.done] ∧
      finalHistory hist g = trimHistory (hist ++
        [{ role := "user", content := u },
         { role := "assistant", content := String.join contents }]) := by
  obtain ⟨hu, resp, hfirst, hcase⟩ := chat_stream_cases net backend hist u g hg
  rcases hcase with ⟨hne, rfl⟩ | ⟨hemp, rfl⟩
  · obtain ⟨hr, hs⟩ := (gwtc_raised_none net backend.streamItems u
      (buildMessages hist u) resp).mp hok
    refine ⟨"🔧 Calling tool: " ++ String.intercalate ", " (resp.tool_calls.map (·.name)),
      (streamYields backend.streamItems).1, ?_, ?_⟩
    · unfold GenOutput.events
      rw [gwtc_success net backend.streamItems u (buildMessages hist u) resp hr hs,
        events_shape]
    · unfold finalHistory
      rw [gwtc_success net backend.streamItems u (buildMessages hist u) resp hr hs]
      exact foldl_shape hist _ _ u _
  · have hs := (gen_raised_none backend.streamItems u (buildMessages hist u)).mp hok
    refine ⟨"💭 Responding directly (no tools needed)",
      (streamYields backend.streamItems).1, ?_, ?_⟩
    · unfold GenOutput.events
      rw [gen_success backend.streamItems u (buildMessages hist u) hs, events_shape]
    · unfold finalHistory
      rw [gen_success backend.streamItems u (buildMessages hist u) hs]
      exact foldl_shape hist _ _ u _

/-- C8 witness. -/
theorem c8_event_order_witness :
    (getStream (chat netFix backendDirect [] "What can you do?")).events =
      Event.reasoning "💭 Responding directly (no tools needed)" ::
      (["I can ", "help."].map Event.content) ++ [Event.done] ∧
    finalHistory [] (getStream (chat netFix backendDirect [] "What can you do?")) =
      [{ role := "user", content := "What can you do?" },
       { role := "assistant", content := "I can help." }] := by
  obtain ⟨status, contents, hev, hfin⟩ := c8_event_order netFix backendDirect []
    "What can you do?" (getStream (chat netFix backendDirect [] "What can you do?")) rfl rfl
  exact ⟨rfl, rfl⟩

/-- C1 counterexample: with a backend stub that always requests tool calls
(and hence streams no terminal content), the turn performs exactly ONE
tool-resolution round (one executor invocation), never five, and ends
with a normal `done` event rather than any distinguished
budget-exceeded failure. -/
theorem c1_counterexample :
    (getStream (chat netFix backendAlwaysTool [] "List my VMs")).invocations.length = 1 ∧
    (getStream (chat netFix backendAlwaysTool [] "List my VMs")).invocations.length ≠ 5 ∧
    (getStream (chat netFix backendAlwaysTool [] "List my VMs")).raised = Option.none ∧
    (getStream (chat netFix backendAlwaysTool [] "List my VMs")).events.getLast? =
      some Event.done := by
  exact ⟨rfl, by decide, rfl, rfl⟩

/-- C1 (amended): the orchestration performs at most one
resolve-then-respond round per turn: the executor is invoked at most
once per tool call of the first model response (never more), and a
normally-completing turn always ends in a `done` event — there is no
iteration budget and no budget-exceeded failure mode. -/
theorem c1_single_round (net : NetOracle) (backend : Backend) (hist : List ChatMsg)
    (u : String) (g : GenOutput) (resp : ModelResponse)
    (hg : chat net backend hist u = .stream g) (hfirst : backend.first = .ok resp) :
    g.invocations.length ≤ resp.tool_calls.length ∧
    (g.raised = Option.none → g.events.getLast? = some Event.done) ∧
    (g.raised ≠ Option.none → Event.done ∉ g.events) := by
  obtain ⟨hu, resp', hfirst', hcase⟩ := chat_stream_cases net backend hist u g hg
  rw [hfirst] at hfirst'
  have hresp : resp = resp' := by
    cases hfirst'
    rfl
  subst hresp
  refine ⟨?_, ?_, ?_⟩
  · rcases hcase with ⟨hne, rfl⟩ | ⟨hemp, rfl⟩
    · rw [(gwtc_messages net backend.streamItems u (buildMessages hist u) resp).2]
      exact runToolCalls_invs_length net resp.tool_calls
    · rw [(gen_messages backend.streamItems u (buildMessages hist u)).2]
      simp
  · intro hok
    rcases hcase with ⟨hne, rfl⟩ | ⟨hemp, rfl⟩
    · obtain ⟨hr, hs⟩ := (gwtc_raised_none net backend.streamItems u
        (buildMessages hist u) resp).mp hok
      unfold GenOutput.events
      rw [gwtc_success net backend.streamItems u (buildMessages hist u) resp hr hs,
        events_shape]
      rw [show Event.reasoning _ :: (streamYields backend.streamItems).1.map Event.content ++
          [Event.done] = (Event.reasoning ("🔧 Calling tool: " ++ String.intercalate ", "
            (resp.tool_calls.map (·.name))) ::
          (streamYields backend.streamItems).1.map Event.content) ++ [Event.done] from rfl]
      exact List.getLast?_concat _
    · have hs := (gen_raised_none backend.streamItems u (buildMessages hist u)).mp hok
      unfold GenOutput.events
      rw [gen_success backend.streamItems u (buildMessages hist u) hs, events_shape]
      rw [show Event.reasoning _ :: (streamYields backend.streamItems).1.map Event.content ++
          [Event.done] = (Event.reasoning "💭 Responding directly (no tools needed)" ::
          (streamYields backend.streamItems).1.map Event.content) ++ [Event.done] from rfl]
      exact List.getLast?_concat _
  · intro hraised hdone
    have hshape : ∀ s ∈ g.segments, s.effect = Effect.noop ∧ s.event ≠ Event.done := by
      rcases hcase with ⟨hne, rfl⟩ | ⟨hemp, rfl⟩
      · exact gwtc_raised_shape _ _ _ _ _ hraised
      · exact gen_raised_shape _ _ _ hraised
    obtain ⟨s, hs, hev⟩ := List.mem_map.mp hdone
    exact (hshape s hs).2 hev

/-- C1 witness. -/
theorem c1_single_round_witness :
    (getStream (chat netFix backendOneTool [] "List my VMs")).invocations.length ≤ 1 ∧
    (getStream (chat netFix backendOneTool [] "List my VMs")).events.getLast? =
      some Event.done := by
  have h := c1_single_round netFix backendOneTool [] "List my VMs"
    (getStream (chat netFix backendOneTool [] "List my VMs")) respOneTool rfl rfl
  exact ⟨h.1, h.2.1 rfl⟩

/-- C2 counterexample: in a turn with one tool call followed by a
terminal streamed answer, the session's Conversation gains exactly TWO
messages (user, assistant-final), not the four the claim asserts. -/
theorem c2_counterexample :
    finalHistory [] (getStream (chat netFix backendOneTool [] "List my VMs")) =
      [{ role := "user", content := "List my VMs" },
       { role := "assistant", content := "No instances." }] ∧
    (finalHistory [] (getStream (chat netFix backendOneTool [] "List my VMs"))).length = 2 ∧
    (finalHistory [] (getStream (chat netFix backendOneTool [] "List my VMs"))).length ≠ 4 := by
  exact ⟨rfl, rfl, by decide⟩

/-- C2 (amended): for a turn with one tool call and then a terminal
answer, exactly TWO messages are committed to the session's
Conversation — user, then assistant-final; the assistant-with-toolcalls
and tool-result messages are appended, in that order, only to the
turn's transient working message list; and the client receives a status
event naming the invoked tool before any content event. -/
theorem c2_two_messages_committed (net : NetOracle) (backend : Backend) (hist : List ChatMsg)
    (u : String) (g : GenOutput) (resp : ModelResponse) (tc : ToolCall)
    (hg : chat net backend hist u = .stream g) (hfirst : backend.first = .ok resp)
    (htc : resp.tool_calls = [tc])
    (hargs : (jsonLoads tc.arguments).isSome)
    (hexec : exceptOk (execute_tool net tc.name (parsedArgs tc)) = true)
    (hok : g.raised = Option.none) :
    finalHistory hist g = trimHistory (hist ++
      [{ role := "user", content := u },
       { role := "assistant", content := String.join (streamYields backend.streamItems).1 }]) ∧
    g.messages = buildMessages hist u ++ [assistantToolMsg resp, toolMsgOf net tc] ∧
    g.events.head? = some (Event.reasoning ("🔧 Calling tool: " ++ tc.name)) ∧
    (∀ i e, g.events.get? i = some (Event.content e) → 0 < i) := by
  obtain ⟨hu, resp', hfirst', hcase⟩ := chat_stream_cases net backend hist u g hg
  rw [hfirst] at hfirst'
  have hresp : resp = resp' := by
    cases hfirst'
    rfl
  subst hresp
  rcases hcase with ⟨hne, rfl⟩ | ⟨hemp, rfl⟩
  · have hall : ∀ x ∈ resp.tool_calls, (jsonLoads x.arguments).isSome ∧
        exceptOk (execute_tool net x.name (parsedArgs x)) = true := by
      intro x hx
      rw [htc] at hx
      simp only [List.mem_singleton] at hx
      subst hx
      exact ⟨hargs, hexec⟩
    have hrun := runToolCalls_ok net resp.tool_calls hall
    obtain ⟨hr, hs⟩ := (gwtc_raised_none net backend.streamItems u
      (buildMessages hist u) resp).mp hok
    have hevents : (generate_with_tool_call net backend.streamItems u
        (buildMessages hist u) resp).events =
        Event.reasoning ("🔧 Calling tool: " ++ String.intercalate ", "
          (resp.tool_calls.map (·.name))) ::
        (streamYields backend.streamItems).1.map Event.content ++ [Event.done] := by
      unfold GenOutput.events
      rw [gwtc_success net backend.streamItems u (buildMessages hist u) resp hr hs,
        events_shape]
    refine ⟨?_, ?_, ?_, ?_⟩
    · unfold finalHistory
      rw [gwtc_success net backend.streamItems u (buildMessages hist u) resp hr hs]
      exact foldl_shape hist _ _ u _
    · rw [(gwtc_messages net backend.streamItems u (buildMessages hist u) resp).1, hrun, htc]
      simp
    · rw [hevents, htc]
      simp only [List.map_cons, List.map_nil, List.head?_cons, Option.some.injEq]
      congr 1
    · intro i e hi
      rcases i with _ | n
      · rw [hevents] at hi
        simp at hi
      · omega
  · rw [hemp] at htc
    simp at htc

/-- C2 witness. -/
theorem c2_two_messages_committed_witness :
    finalHistory [] (getStream (chat netFix backendOneTool [] "List my VMs")) =
      trimHistory ([] ++
        [{ role := "user", content := "List my VMs" },
         { role := "assistant",
           content := String.join (streamYields backendOneTool.streamItems).1 }]) ∧
    (getStream (chat netFix backendOneTool [] "List my VMs")).events.head? =
      some (Event.reasoning "🔧 Calling tool: get_gcp_instances") := by
  have h := c2_two_messages_committed netFix backendOneTool [] "List my VMs"
    (getStream (chat netFix backendOneTool [] "List my VMs")) respOneTool tc1
    rfl rfl rfl (by decide) (by decide) rfl
  exact ⟨h.1, h.2.2.1⟩

/-- C5 counterexample: a tool call whose arguments are not valid JSON is
NOT converted into a tool message: the generator raises, no tool
message exists, the stream ends after the status event with no `done`,
and nothing is committed. -/
theorem c5_counterexample :
    (getStream (chat netFix backendBadArgs [] "break me")).raised ≠ Option.none ∧
    (∀ m ∈ (getStream (chat netFix backendBadArgs [] "break me")).messages,
      m.role ≠ "tool") ∧
    (getStream (chat netFix backendBadArgs [] "break me")).events =
      [Event.reasoning "🔧 Calling tool: get_gcp_instances"] ∧
    Event.done ∉ (getStream (chat netFix backendBadArgs [] "break me")).events ∧
    finalHistory [] (getStream (chat netFix backendBadArgs [] "break me")) = [] := by
  exact ⟨by decide, by decide, rfl, by decide, rfl⟩

/-- C5 (amended): a ToolCall whose argument payload fails to parse as
JSON aborts the turn: `json.loads` raises an uncaught exception inside
the generator, the event stream terminates without a `done` event, and
the Conversation is left unchanged — the parse failure is NOT converted
into a tool message (only handler failures and unknown tool names are). -/
theorem c5_parse_failure_aborts (net : NetOracle) (backend : Backend) (hist : List ChatMsg)
    (u : String) (g : GenOutput) (resp : ModelResponse) (tc : ToolCall)
    (hg : chat net backend hist u = .stream g) (hfirst : backend.first = .ok resp)
    (hmem : tc ∈ resp.tool_calls)
    (hbad : jsonLoads tc.arguments = Option.none) :
    g.raised ≠ Option.none ∧ Event.done ∉ g.events ∧ finalHistory hist g = hist := by
  obtain ⟨hu, resp', hfirst', hcase⟩ := chat_stream_cases net backend hist u g hg
  rw [hfirst] at hfirst'
  have hresp : resp = resp' := by
    cases hfirst'
    rfl
  subst hresp
  rcases hcase with ⟨hne, rfl⟩ | ⟨hemp, rfl⟩
  · have herr := runToolCalls_fail net resp.tool_calls tc hmem hbad
    have hraised : (generate_with_tool_call net backend.streamItems u
        (buildMessages hist u) resp).raised ≠ Option.none := by
      intro hcontr
      obtain ⟨hr, _⟩ := (gwtc_raised_none net backend.streamItems u
        (buildMessages hist u) resp).mp hcontr
      rw [hr] at herr
      simp at herr
    have hshape := gwtc_raised_shape net backend.streamItems u
      (buildMessages hist u) resp hraised
    refine ⟨hraised, ?_, ?_⟩
    · intro hdone
      obtain ⟨s, hsm, hev⟩ := List.mem_map.mp hdone
      exact (hshape s hsm).2 hev
    · unfold finalHistory
      exact foldl_applyEffect_noop _ _ (fun s hs => (hshape s hs).1)
  · rw [hemp] at hmem
    simp at hmem

/-- C5 witness. -/
theorem c5_parse_failure_aborts_witness :
    (getStream (chat netFix backendBadArgs [] "create a vm")).raised ≠ Option.none ∧
    finalHistory [] (getStream (chat netFix backendBadArgs [] "create a vm")) = [] := by
  have h := c5_parse_failure_aborts netFix backendBadArgs [] "create a vm"
    (getStream (chat netFix backendBadArgs [] "create a vm")) respBadArgs tcBad
    rfl rfl (by decide) rfl
  exact ⟨h.1, h.2.2⟩

/-- C6: a ToolCall whose name is not in the dispatch table never raises:
`execute_tool` returns the "unknown tool" notice listing the available
tools, the notice is appended as a tool message to the working list, and
the turn still completes with a `done` event. -/
theorem c6_unknown_tool (net : NetOracle) (backend : Backend) (hist : List ChatMsg)
    (u : String) (g : GenOutput) (resp : ModelResponse) (tc : ToolCall)
    (hg : chat net backend hist u = .stream g) (hfirst : backend.first = .ok resp)
    (htc : resp.tool_calls = [tc])
    (hname : tc.name ∉ (["get_gcp_instances", "list_gcp_disks", "list_gcp_buckets",
      "estimate_gcp_cost", "create_gcp_bucket", "create_gcp_instance"] : List String))
    (hargs : (jsonLoads tc.arguments).isSome)
    (hstream : (streamYields backend.streamItems).2 = Option.none) :
    (∀ a, execute_tool net tc.name a = .ok (unknownToolNotice tc.name)) ∧
    g.raised = Option.none ∧
    toolMsgOf net tc ∈ g.messages ∧
    toolOutcome net tc = unknownToolNotice tc.name ∧
    g.events.getLast? = some Event.done := by
  simp only [List.mem_cons, List.mem_singleton, not_or] at hname
  obtain ⟨h1, h2, h3, h4, h5, h6, _⟩ := hname
  have hexec : ∀ a, execute_tool net tc.name a = .ok (unknownToolNotice tc.name) := by
    intro a
    simp [execute_tool, h1, h2, h3, h4, h5, h6]
  obtain ⟨hu, resp', hfirst', hcase⟩ := chat_stream_cases net backend hist u g hg
  rw [hfirst] at hfirst'
  have hresp : resp = resp' := by
    cases hfirst'
    rfl
  subst hresp
  rcases hcase with ⟨hne, rfl⟩ | ⟨hemp, rfl⟩
  · have hall : ∀ x ∈ resp.tool_calls, (jsonLoads x.arguments).isSome ∧
        exceptOk (execute_tool net x.name (parsedArgs x)) = true := by
      intro x hx
      rw [htc] at hx
      simp only [List.mem_singleton] at hx
      subst hx
      exact ⟨hargs, by rw [hexec]; rfl⟩
    have hrun := runToolCalls_ok net resp.tool_calls hall
    have hraised : (generate_with_tool_call net backend.streamItems u
        (buildMessages hist u) resp).raised = Option.none := by
      rw [gwtc_raised_none]
      exact ⟨by rw [hrun], hstream⟩
    refine ⟨hexec, hraised, ?_, ?_, ?_⟩
    · rw [(gwtc_messages net backend.streamItems u (buildMessages hist u) resp).1, hrun, htc]
      simp
    · unfold toolOutcome
      rw [hexec]
    · obtain ⟨hr, hs⟩ := (gwtc_raised_none net backend.streamItems u
        (buildMessages hist u) resp).mp hraised
      unfold GenOutput.events
      rw [gwtc_success net backend.streamItems u (buildMessages hist u) resp hr hs,
        events_shape]
      rw [show Event.reasoning _ :: (streamYields backend.streamItems).1.map Event.content ++
          [Event.done] = (Event.reasoning ("🔧 Calling tool: " ++ String.intercalate ", "
            (resp.tool_calls.map (·.name))) ::
          (streamYields backend.streamItems).1.map Event.content) ++ [Event.done] from rfl]
      exact List.getLast?_concat _
  · rw [hemp] at htc
    simp at htc

/-- C6 witness. -/
theorem c6_unknown_tool_witness :
    execute_tool netFix "delete_everything" (PyVal.obj []) =
      .ok (unknownToolNotice "delete_everything") ∧
    (getStream (chat netFix backendUnknownTool [] "delete it all")).raised = Option.none ∧
    (getStream (chat netFix backendUnknownTool [] "delete it all")).events.getLast? =
      some Event.done := by
  have h := c6_unknown_tool netFix backendUnknownTool [] "delete it all"
    (getStream (chat netFix backendUnknownTool [] "delete it all")) respUnknown tcUnknown
    rfl rfl rfl (by decide) (by decide) rfl
  exact ⟨h.1 (PyVal.obj []), h.2.1, h.2.2.2.2⟩

/-- C7: the Executor is invoked on the tool calls of a model response
strictly in emission order, once each, and the resulting tool messages
are appended to the working conversation in that same order, after the
assistant message that recorded the calls. -/
theorem c7_sequential_order (net : NetOracle) (backend : Backend) (hist : List ChatMsg)
    (u : String) (g : GenOutput) (resp : ModelResponse)
    (hg : chat net backend hist u = .stream g) (hfirst : backend.first = .ok resp)
    (hne : resp.tool_calls ≠ [])
    (hall : ∀ x ∈ resp.tool_calls, (jsonLoads x.arguments).isSome ∧
      exceptOk (execute_tool net x.name (parsedArgs x)) = true) :
    g.invocations = resp.tool_calls.map (fun tc => (tc.name, parsedArgs tc)) ∧
    g.messages = buildMessages hist u ++
      assistantToolMsg resp :: resp.tool_calls.map (toolMsgOf net) := by
  obtain ⟨hu, resp', hfirst', hcase⟩ := chat_stream_cases net backend hist u g hg
  rw [hfirst] at hfirst'
  have hresp : resp = resp' := by
    cases hfirst'
    rfl
  subst hresp
  rcases hcase with ⟨_, rfl⟩ | ⟨hemp, rfl⟩
  · have hrun := runToolCalls_ok net resp.tool_calls hall
    constructor
    · rw [(gwtc_messages net backend.streamItems u (buildMessages hist u) resp).2, hrun]
    · rw [(gwtc_messages net backend.streamItems u (buildMessages hist u) resp).1, hrun]
  · exact absurd hemp hne

/-- C7 witness. -/
theorem c7_sequential_order_witness :
    (getStream (chat netFix backendTwoTools [] "list everything")).invocations =
      [("get_gcp_instances", PyVal.obj []), ("list_gcp_buckets", PyVal.obj [])] ∧
    (getStream (chat netFix backendTwoTools [] "list everything")).messages =
      buildMessages [] "list everything" ++
      assistantToolMsg respTwoTools :: [toolMsgOf netFix tcA, toolMsgOf netFix tcB] := by
  have h := c7_sequential_order netFix backendTwoTools [] "list everything"
    (getStream (chat netFix backendTwoTools [] "list everything")) respTwoTools
    rfl rfl (by decide) (by decide)
  exact ⟨h.1, h.2⟩

theorem lookup_mem {α β : Type} [BEq α] [LawfulBEq α] : ∀ (l : List (α × β)) (a : α) (b : β),
    l.lookup a = some b → ∃ p ∈ l, b = p.2
  | [], a, b, h => by simp [List.lookup] at h
  | (k, v) :: t, a, b, h => by
    rw [List.lookup] at h
    cases hab : a == k
    · simp [hab] at h
      obtain ⟨p, hp, hb⟩ := lookup_mem t a b h
      exact ⟨p, by simp [hp], hb⟩
    · simp [hab] at h
      exact ⟨(k, v), by simp, h.symm⟩

theorem allowedLookup_found (v : PyVal) (c : List String)
    (h : GcloudHelper.allowedLookup v = .found c) :
    ∃ p ∈ GcloudHelper.ALLOWED_COMMANDS, c = p.2 := by
  cases v with
  | str s =>
    have h' : (match GcloudHelper.ALLOWED_COMMANDS.lookup s with
        | some c => GcloudHelper.LookupRes.found c
        | Option.none => GcloudHelper.LookupRes.notFound) =
        GcloudHelper.LookupRes.found c := h
    rcases hx : GcloudHelper.ALLOWED_COMMANDS.lookup s with _ | c'
    · rw [hx] at h'
      simp at h'
    · rw [hx] at h'
      obtain rfl : c' = c := by
        cases h'
        rfl
      exact lookup_mem _ _ _ hx
  | none => simp [GcloudHelper.allowedLookup] at h
  | bool b => simp [GcloudHelper.allowedLookup] at h
  | int n => simp [GcloudHelper.allowedLookup] at h
  | list xs => simp [GcloudHelper.allowedLookup] at h
  | obj fs => simp [GcloudHelper.allowedLookup] at h

/-- C9: every subprocess the `/execute` endpoint ever spawns is one of
the five fixed whitelist vectors (no part of the request body reaches
the command line), and a command name outside the whitelist yields a
403 error body without spawning any process. -/
theorem c9_whitelist (reqJson : Except String PyVal)
    (runner : List String → Except String GcloudHelper.SubprocResult) :
    (∀ cmd ∈ (GcloudHelper.execute_command reqJson runner).spawned,
      ∃ p ∈ GcloudHelper.ALLOWED_COMMANDS, cmd = p.2) ∧
    (∀ fields s, reqJson = .ok (.obj fields) →
      (dictLookup fields "command").getD .none = .str s →
      GcloudHelper.ALLOWED_COMMANDS.lookup s = Option.none →
      (GcloudHelper.execute_command reqJson runner).status = 403 ∧
      (GcloudHelper.execute_command reqJson runner).spawned = [] ∧
      (GcloudHelper.execute_command reqJson runner).body =
        PyVal.obj [("error", PyVal.str "Command not allowed")]) := by
  constructor
  · intro cmd hcmd
    rcases reqJson with e | data
    · simp [GcloudHelper.execute_command] at hcmd
    · rcases data with _ | b | n | s | xs | fields
      · simp [GcloudHelper.execute_command] at hcmd
      · simp [GcloudHelper.execute_command] at hcmd
      · simp [GcloudHelper.execute_command] at hcmd
      · simp [GcloudHelper.execute_command] at hcmd
      · simp [GcloudHelper.execute_command] at hcmd
      · rcases hl : GcloudHelper.allowedLookup ((dictLookup fields "command").getD .none)
          with c | _ | _
        · rcases hr : runner c with e | result
          · simp [GcloudHelper.execute_command, hl, hr] at hcmd
            subst hcmd
            exact allowedLookup_found _ _ hl
          · by_cases hrc : result.returncode = 0
            · simp [GcloudHelper.execute_command, hl, hr, hrc] at hcmd
              subst hcmd
              exact allowedLookup_found _ _ hl
            · simp [GcloudHelper.execute_command, hl, hr, hrc] at hcmd
              subst hcmd
              exact allowedLookup_found _ _ hl
        · simp [GcloudHelper.execute_command, hl] at hcmd
        · simp [GcloudHelper.execute_command, hl] at hcmd
  · intro fields s hreq hval hlook
    subst hreq
    have hal : GcloudHelper.allowedLookup ((dictLookup fields "command").getD .none) =
        GcloudHelper.LookupRes.notFound := by
      rw [hval]
      show (match GcloudHelper.ALLOWED_COMMANDS.lookup s with
        | some c => GcloudHelper.LookupRes.found c
        | Option.none => GcloudHelper.LookupRes.notFound) = GcloudHelper.LookupRes.notFound
      rw [hlook]
    simp [GcloudHelper.execute_command, hal]

/-- C9 witness. -/
theorem c9_whitelist_witness :
    (GcloudHelper.execute_command (.ok (.obj [("command", .str "rm_rf")]))
      (fun _ => .error "unavailable")).status = 403 ∧
    (GcloudHelper.execute_command (.ok (.obj [("command", .str "rm_rf")]))
      (fun _ => .error "unavailable")).spawned = [] := by
  have h := (c9_whitelist (.ok (.obj [("command", .str "rm_rf")]))
    (fun _ => .error "unavailable")).2 [("command", .str "rm_rf")] "rm_rf" rfl rfl rfl
  exact ⟨h.1, h.2.1⟩

theorem data_head_append (a e : String) (c : Char) (h : a.data.head? = some c) :
    (a ++ e).data.head? = some c := by
  rw [String.data_append]
  cases a' : a.data <;> rw [a'] at h <;> simp_all

theorem string_ne_of_head_ne (a b : String) (ca cb : Char) (ha : a.data.head? = some ca)
    (hb : b.data.head? = some cb) (hne : ca ≠ cb) : a ≠ b := by
  intro e
  rw [e, hb] at ha
  simp at ha
  exact hne ha.symm

theorem bucketPrompt_head (name : PyVal) : (bucketPrompt name).data.head? = some 'T' := by
  unfold bucketPrompt
  repeat apply data_head_append
  rfl

theorem instancePrompt_head (name : PyVal) : (instancePrompt name).data.head? = some 'T' := by
  unfold instancePrompt
  repeat apply data_head_append
  rfl

theorem create_gcp_bucket_ne_prompt (net : NetOracle) (name l c : PyVal)
    (hl : pyTruthy l = true) (hc : pyTruthy c = true) :
    create_gcp_bucket net name l c ≠ bucketPrompt name := by
  unfold create_gcp_bucket
  cases hn : pyTruthy name
  · simp only [hn, Bool.not_false, if_pos]
    exact string_ne_of_head_ne _ _ 'E' 'T' rfl (bucketPrompt_head name) (by decide)
  · simp only [hn, hl, hc, Bool.not_true, Bool.or_self, Bool.false_eq_true, if_false]
    rcases net.createBucketResp with e | data
    · exact string_ne_of_head_ne _ _ 'E' 'T'
        (data_head_append _ _ _ rfl) (bucketPrompt_head name) (by decide)
    · refine string_ne_of_head_ne _ _ '✅' 'T' ?_ (bucketPrompt_head name) (by decide)
      repeat apply data_head_append
      rfl

theorem create_gcp_instance_ne_prompt (net : NetOracle) (name z m : PyVal)
    (hz : pyTruthy z = true) (hm : pyTruthy m = true) :
    create_gcp_instance net name z m ≠ instancePrompt name := by
  unfold create_gcp_instance
  cases hn : pyTruthy name
  · simp only [hn, Bool.not_false, if_pos]
    exact string_ne_of_head_ne _ _ 'E' 'T' rfl (instancePrompt_head name) (by decide)
  · simp only [hn, hz, hm, Bool.not_true, Bool.or_self, Bool.false_eq_true, if_false]
    rcases net.createInstanceResp with e | data
    · exact string_ne_of_head_ne _ _ 'E' 'T'
        (data_head_append _ _ _ rfl) (instancePrompt_head name) (by decide)
    · refine string_ne_of_head_ne _ _ '✅' 'T' ?_ (instancePrompt_head name) (by decide)
      repeat apply data_head_append
      rfl

/-- C10: for `create_gcp_bucket` and `create_gcp_instance`,
`execute_tool` substitutes the concrete defaults (`US`/`STANDARD`, resp.
`us-central1-a`/`e2-micro`) for absent optional keys before invoking
the handler, so the handler's "please specify" prompt branch is reached
only when an optional argument is present but falsy (empty/null), never
when the key is simply absent. -/
theorem c10_default_substitution (net : NetOracle) (fields : List (String × PyVal))
    (hname : pyTruthy ((dictLookup fields "name").getD .none) = true) :
    (execute_tool net "create_gcp_bucket" (.obj fields) =
      .ok (create_gcp_bucket net ((dictLookup fields "name").getD .none)
        ((dictLookup fields "location").getD (.str "US"))
        ((dictLookup fields "storage_class").getD (.str "STANDARD")))) ∧
    (dictLookup fields "location" = Option.none →
      dictLookup fields "storage_class" = Option.none →
      execute_tool net "create_gcp_bucket" (.obj fields) ≠
        .ok (bucketPrompt ((dictLookup fields "name").getD .none))) ∧
    (∀ v, dictLookup fields "location" = some v → pyTruthy v = false →
      execute_tool net "create_gcp_bucket" (.obj fields) =
        .ok (bucketPrompt ((dictLookup fields "name").getD .none))) ∧
    (∀ v, dictLookup fields "storage_class" = some v → pyTruthy v = false →
      execute_tool net "create_gcp_bucket" (.obj fields) =
        .ok (bucketPrompt ((dictLookup fields "name").getD .none))) ∧
    (execute_tool net "create_gcp_instance" (.obj fields) =
      .ok (create_gcp_instance net ((dictLookup fields "name").getD .none)
        ((dictLookup fields "zone").getD (.str "us-central1-a"))
        ((dictLookup fields "machine_type").getD (.str "e2-micro")))) ∧
    (dictLookup fields "zone" = Option.none →
      dictLookup fields "machine_type" = Option.none →
      execute_tool net "create_gcp_instance" (.obj fields) ≠
        .ok (instancePrompt ((dictLookup fields "name").getD .none))) ∧
    (∀ v, dictLookup fields "zone" = some v → pyTruthy v = false →
      execute_tool net "create_gcp_instance" (.obj fields) =
        .ok (instancePrompt ((dictLookup fields "name").getD .none))) ∧
    (∀ v, dictLookup fields "machine_type" = some v → pyTruthy v = false →
      execute_tool net "create_gcp_instance" (.obj fields) =
        .ok (instancePrompt ((dictLookup fields "name").getD .none))) := by
  have hb : execute_tool net "create_gcp_bucket" (.obj fields) =
      .ok (create_gcp_bucket net ((dictLookup fields "name").getD .none)
        ((dictLookup fields "location").getD (.str "US"))
        ((dictLookup fields "storage_class").getD (.str "STANDARD"))) := rfl
  have hi : execute_tool net "create_gcp_instance" (.obj fields) =
      .ok (create_gcp_instance net ((dictLookup fields "name").getD .none)
        ((dictLookup fields "zone").getD (.str "us-central1-a"))
        ((dictLookup fields "machine_type").getD (.str "e2-micro"))) := rfl
  refine ⟨hb, ?_, ?_, ?_, hi, ?_, ?_, ?_⟩
  · intro h1 h2 hcontr
    rw [hb, h1, h2] at hcontr
    simp only [Option.getD_none, Except.ok.injEq] at hcontr
    exact create_gcp_bucket_ne_prompt net _ (.str "US") (.str "STANDARD") rfl rfl hcontr
  · intro v hv hfalse
    rw [hb, hv]
    simp only [Option.getD_some]
    unfold create_gcp_bucket
    simp [hname, hfalse]
  · intro v hv hfalse
    rw [hb, hv]
    simp only [Option.getD_some]
    unfold create_gcp_bucket
    simp [hname, hfalse]
  · intro h1 h2 hcontr
    rw [hi, h1, h2] at hcontr
    simp only [Option.getD_none, Except.ok.injEq] at hcontr
    exact create_gcp_instance_ne_prompt net _ (.str "us-central1-a") (.str "e2-micro")
      rfl rfl hcontr
  · intro v hv hfalse
    rw [hi, hv]
    simp only [Option.getD_some]
    unfold create_gcp_instance
    simp [hname, hfalse]
  · intro v hv hfalse
    rw [hi, hv]
    simp only [Option.getD_some]
    unfold create_gcp_instance
    simp [hname, hfalse]

/-- C10 witness. -/
theorem c10_default_substitution_witness :
    execute_tool netFix "create_gcp_bucket" (.obj [("name", .str "b1")]) =
      .ok (create_gcp_bucket netFix (.str "b1") (.str "US") (.str "STANDARD")) ∧
    execute_tool netFix "create_gcp_bucket"
        (.obj [("name", .str "b1"), ("location", .str "")]) =
      .ok (bucketPrompt (.str "b1")) := by
  have h1 := (c10_default_substitution netFix [("name", .str "b1")] (by decide)).1
  have h2 := (c10_default_substitution netFix [("name", .str "b1"), ("location", .str "")]
    (by decide)).2.2.1 (.str "") rfl rfl
  exact ⟨h1, h2⟩

end CloudDay
